import Mathlib

/-!
Shallow embedding of the `rdb` Go package (streaming Redis RDB snapshot
decoder), most complete draft.  Bytes are modelled as `Nat`; on a byte
`b < 256` the Go expression `b >> 6` equals `b / 64 % 4` and
`b << 2 >> 2` equals `b % 64`, which is how the bit operations are
rendered here.  The `bufio.Reader` cursor is modelled in state-passing
style: every read step takes the list of bytes still unread and returns
its result together with the bytes remaining afterwards (also on
failure, mirroring how far the Go reader advanced).  A read of `n`
bytes via `bufio.Read` over a fully available source returns all `n`
bytes when available, a short count (no error) when 1..n-1 bytes are
available, and `io.EOF` when none are.  Errors are the package's
sentinel errors plus `io.EOF`.
-/

namespace RDB

/-- Error taxonomy: the package's sentinel errors plus `io.EOF`. -/
inductive Err where
  | errFormat
  | errBadOpCode
  | errNotSupported
  | errVersion
  | ioEOF
deriving DecidableEq

/-- Opcode constants of the format. -/
def opAux : Nat := 0xFA

def opResizeDB : Nat := 0xFB

def opExpiretimeMs : Nat := 0xFC

def opExpiretime : Nat := 0xFD

def opSelectDB : Nat := 0xFE

def opEOF : Nat := 0xFF

namespace ValueType

/-- Value-type tag `String`. -/
def String : Nat := 0

/-- Value-type tag `List`. -/
def List : Nat := 1

/-- Value-type tag `Set`. -/
def Set : Nat := 2

def Zset : Nat := 3

def Hash : Nat := 4

def Zset2 : Nat := 5

def Module : Nat := 6

def Module2 : Nat := 7

def HashZipmap : Nat := 8

def ListZipList : Nat := 9

def SetIntSet : Nat := 10

def ZSetZipList : Nat := 11

def HashZipList : Nat := 12

def ListQuickList : Nat := 13

def StreamListPacks : Nat := 14

end ValueType

/-- Go `pad(bs, size)`: a `size`-byte buffer of zeros with `bs` copied
into its tail. -/
def pad (bs : List Nat) (size : Nat) : List Nat :=
  List.replicate (size - bs.length) 0 ++ bs

/-- Go `binary.BigEndian.Uint64` on an 8-byte buffer: the big-endian
value of the bytes (stated as a fold, defined for any length). -/
def beUint64 (bs : List Nat) : Nat :=
  bs.foldl (fun acc b => acc * 256 + b) 0

/-- Embedding of `readLenghtEncodedValue` (sic): decodes one length-encoded value.
On success returns the decoded integer and the raw bytes consumed;
the second component is the bytes remaining in the cursor. -/
def readLenghtEncodedValue (input : List Nat) :
    (Except Err (Nat × List Nat)) × List Nat :=
  match input with
  | [] => (.error .ioEOF, [])
  | b :: rest =>
    match b / 64 % 4 with
    | 0 => -- 6 bit integer
      (.ok (beUint64 (pad [b % 64] 8), [b]), rest)
    | 1 => -- 14 bit integer
      match rest with
      | [] => (.error .ioEOF, [])
      | b2 :: rest2 => (.ok (beUint64 (pad [b % 64, b2] 8), [b, b2]), rest2)
    | 2 =>
      -- number of bytes to read: 0 -> 32 bit, 1 -> 64 bit, else format error
      match (match b % 64 with | 0 => some 4 | 1 => some 8 | _ => none) with
      | none => (.error .errFormat, rest)
      | some nb =>
        if rest.length = 0 then (.error .ioEOF, rest)
        else if rest.length < nb then (.error .errFormat, [])
        else (.ok (beUint64 (pad (rest.take nb) 8), b :: rest.take nb),
              rest.drop nb)
    | _ => -- string encoded field
      match b % 64 with
      | 0 => (.ok (1, [b]), rest)
      | 1 => (.ok (2, [b]), rest)
      | 2 => (.ok (4, [b]), rest)
      | 3 => (.error .errNotSupported, rest)
      | _ => (.error .errFormat, rest)

example : readLenghtEncodedValue [0x05] = (.ok (5, [0x05]), []) := rfl

example : readLenghtEncodedValue [0x42, 0xFF] = (.ok (767, [0x42, 0xFF]), []) := rfl

example : readLenghtEncodedValue [0x80, 0x42, 0x31, 0x20, 0x53]
    = (.ok (1110515795, [0x80, 0x42, 0x31, 0x20, 0x53]), []) := rfl

example : (readLenghtEncodedValue [0x80, 0x42, 0x31, 0x20]).1 = .error .errFormat := rfl

example : (readLenghtEncodedValue [0x80]).1 = .error .ioEOF := rfl

example : readLenghtEncodedValue [0x81, 0x01, 0x12, 0x23, 0x34, 0x45, 0x56, 0x67, 0x78]
    = (.ok (77162851027281784, [0x81, 0x01, 0x12, 0x23, 0x34, 0x45, 0x56, 0x67, 0x78]), []) := rfl

example : (readLenghtEncodedValue [0x81, 0x12, 0x23, 0x34, 0x45, 0x56, 0x67, 0x78]).1
    = .error .errFormat := rfl

example : (readLenghtEncodedValue [0x82, 0x01, 0x12, 0x23, 0x34, 0x45, 0x56, 0x67, 0x78]).1
    = .error .errFormat := rfl

example : readLenghtEncodedValue [0xC0] = (.ok (1, [0xC0]), []) := rfl

example : readLenghtEncodedValue [0xC1] = (.ok (2, [0xC1]), []) := rfl

example : readLenghtEncodedValue [0xC2] = (.ok (4, [0xC2]), []) := rfl

example : (readLenghtEncodedValue [0xC3, 0x01, 0x02, 0x03, 0x04]).1 = .error .errNotSupported := rfl

example : (readLenghtEncodedValue [0xFF]).1 = .error .errFormat := rfl

example : (readLenghtEncodedValue [0x42]).1 = .error .ioEOF := rfl

example : (readLenghtEncodedValue []).1 = .error .ioEOF := rfl

/-- Embedding of `readStringEncodedValue`: decodes one length-prefixed string.  On
success returns the string content and the raw bytes consumed (prefix
plus content).  A short read of the content yields `io.EOF` (both when
no byte and when only some bytes are available). -/
def readStringEncodedValue (input : List Nat) :
    (Except Err (List Nat × List Nat)) × List Nat :=
  match readLenghtEncodedValue input with
  | (.error e, rest) => (.error e, rest)
  | (.ok (l, raw), rest) =>
    if rest.length < l then (.error .ioEOF, [])
    else (.ok (rest.take l, raw ++ rest.take l), rest.drop l)

example : readStringEncodedValue [0x0D, 0x48, 0x65, 0x6C, 0x6C, 0x6F, 0x2C, 0x20,
      0x77, 0x6F, 0x72, 0x6C, 0x64, 0x21]
    = (.ok ([0x48, 0x65, 0x6C, 0x6C, 0x6F, 0x2C, 0x20, 0x77, 0x6F, 0x72, 0x6C, 0x64, 0x21],
        [0x0D, 0x48, 0x65, 0x6C, 0x6C, 0x6F, 0x2C, 0x20, 0x77, 0x6F, 0x72, 0x6C, 0x64, 0x21]),
       []) := rfl

example : (readStringEncodedValue [0x0D, 0x48, 0x65, 0x6C, 0x6C, 0x6F, 0x2C, 0x20,
      0x77, 0x6F, 0x72, 0x6C, 0x64]).1 = .error .ioEOF := rfl

example : (readStringEncodedValue [0x01]).1 = .error .ioEOF := rfl

example : (readStringEncodedValue []).1 = .error .ioEOF := rfl

/-- The element loop of `readListEncodedValue`: reads `n` strings in
order, returning the decoded strings and each element's raw bytes. -/
def readListElems : Nat → List Nat → (Except Err (List (List Nat) × List (List Nat))) × List Nat
  | 0, input => (.ok ([], []), input)
  | n + 1, input =>
    match readStringEncodedValue input with
    | (.error e, rest) => (.error e, rest)
    | (.ok (s, raw), rest) =>
      match readListElems n rest with
      | (.error e, rest') => (.error e, rest')
      | (.ok (ss, raws), rest') => (.ok (s :: ss, raw :: raws), rest')

/-- Embedding of `readListEncodedValue`: decodes an ordered-sequence (list/set)
value body: one length-encoded element count, then that many strings.
On success returns the decoded strings and the raw buffer written in
order (count raw bytes, then each element's raw bytes). -/
def readListEncodedValue (input : List Nat) :
    (Except Err (List (List Nat) × List Nat)) × List Nat :=
  match readLenghtEncodedValue input with
  | (.error e, rest) => (.error e, rest)
  | (.ok (ll, craw), rest) =>
    match readListElems ll rest with
    | (.error e, rest') => (.error e, rest')
    | (.ok (ss, raws), rest') => (.ok (ss, craw ++ raws.flatten), rest')

example : readListEncodedValue [0x02, 0x05, 0x48, 0x65, 0x6C, 0x6C, 0x6F,
      0x06, 0x77, 0x6F, 0x72, 0x6C, 0x64, 0x21]
    = (.ok ([[0x48, 0x65, 0x6C, 0x6C, 0x6F], [0x77, 0x6F, 0x72, 0x6C, 0x64, 0x21]],
        [0x02, 0x05, 0x48, 0x65, 0x6C, 0x6C, 0x6F, 0x06, 0x77, 0x6F, 0x72, 0x6C, 0x64, 0x21]),
       []) := rfl

example : (readListEncodedValue [0x02, 0x05, 0x48, 0x65, 0x6C, 0x6C, 0x6F]).1
    = .error .ioEOF := rfl

example : (readListEncodedValue []).1 = .error .ioEOF := rfl

/-- The tail of `readKeyValuePair` after the TTL has been settled:
reads the value-type byte, the key, and dispatches on the value type
(`List` and `Set` bodies via `readListEncodedValue`, everything else
`ErrNotSupported`).  Returns `(ttl, valueType, key, rawValue)`. -/
def readKVAfterTTL (ttl : Nat) (input : List Nat) :
    (Except Err (Nat × Nat × List Nat × List Nat)) × List Nat :=
  match input with
  | [] => (.error .ioEOF, [])
  | vtb :: rest =>
    match readStringEncodedValue rest with
    | (.error e, rest2) => (.error e, rest2)
    | (.ok (key, _), rest2) =>
      if vtb = ValueType.List then
        match readListEncodedValue rest2 with
        | (.error e, rest3) => (.error e, rest3)
        | (.ok (_, raw), rest3) => (.ok (ttl, vtb, key, raw), rest3)
      else if vtb = ValueType.Set then
        match readListEncodedValue rest2 with
        | (.error e, rest3) => (.error e, rest3)
        | (.ok (_, raw), rest3) => (.ok (ttl, vtb, key, raw), rest3)
      else (.error .errNotSupported, rest2)

/-- Embedding of `readKeyValuePair`: reads one record.  An `opExpiretimeMs` first
byte makes the TTL the next length-encoded integer; `opExpiretime`
multiplies it by 1000 (uint64 arithmetic); any other first byte is
unread and the TTL stays 0. -/
def readKeyValuePair (input : List Nat) :
    (Except Err (Nat × Nat × List Nat × List Nat)) × List Nat :=
  match input with
  | [] => (.error .ioEOF, [])
  | b :: rest =>
    if b = opExpiretimeMs then
      match readLenghtEncodedValue rest with
      | (.error e, rest') => (.error e, rest')
      | (.ok (t, _), rest') => readKVAfterTTL t rest'
    else if b = opExpiretime then
      match readLenghtEncodedValue rest with
      | (.error e, rest') => (.error e, rest')
      | (.ok (t, _), rest') => readKVAfterTTL (t * 1000 % 2 ^ 64) rest'
    else readKVAfterTTL 0 (b :: rest)

/-- The decoder session: version, accumulated metadata, current
database number and the bytes still unread in the buffered cursor. -/
structure Reader where
  Version : Int
  Metadata : List (List Nat × List Nat)
  dbno : Nat
  buffer : List Nat
deriving DecidableEq

/-- Embedding of `setDBNo`: consumes a select-database opcode, decodes the new
database number, optionally consumes a resize hint (two length-encoded
integers), and only then assigns `dbno`. -/
def setDBNo (r : Reader) : (Except Err Unit) × Reader :=
  match r.buffer with
  | [] => (.error .ioEOF, r)
  | b :: rest =>
    if b ≠ opSelectDB then (.error .errBadOpCode, r)
    else
      match readLenghtEncodedValue rest with
      | (.error e, rest') => (.error e, { r with buffer := rest' })
      | (.ok (db, _), rest') =>
        match rest' with
        | [] => (.error .ioEOF, { r with buffer := [] })
        | b2 :: rest2 =>
          if b2 = opResizeDB then
            match readLenghtEncodedValue rest2 with
            | (.error e, rest3) => (.error e, { r with buffer := rest3 })
            | (.ok _, rest3) =>
              match readLenghtEncodedValue rest3 with
              | (.error e, rest4) => (.error e, { r with buffer := rest4 })
              | (.ok _, rest4) => (.ok (), { r with dbno := db, buffer := rest4 })
          else (.ok (), { r with dbno := db, buffer := b2 :: rest2 })

/-- The length codec never leaves more bytes in the cursor than it was
given (needed for termination of the metadata loop). -/
theorem readLenghtEncodedValue_snd_length_le (input : List Nat) :
    ((readLenghtEncodedValue input).2).length ≤ input.length := by
  unfold readLenghtEncodedValue
  rcases input with _ | ⟨b, rest⟩
  · simp
  · repeat' split
    all_goals simp_all [List.length_drop]
    all_goals omega

/-- The string codec never leaves more bytes in the cursor than it was
given (needed for termination of the metadata loop). -/
theorem readStringEncodedValue_snd_length_le (input : List Nat) :
    ((readStringEncodedValue input).2).length ≤ input.length := by
  have h := readLenghtEncodedValue_snd_length_le input
  unfold readStringEncodedValue
  rcases hr : readLenghtEncodedValue input with ⟨res, rest⟩
  rw [hr] at h
  rcases res with e | ⟨l, raw⟩
  · simpa using h
  · simp only at h ⊢
    split
    · simp
    · simp only [List.length_drop]
      omega

/-- Hypothesis form of `readStringEncodedValue_snd_length_le`. -/
theorem readStringEncodedValue_length_le {x : List Nat}
    {res : Except Err (List Nat × List Nat)} {y : List Nat}
    (h : readStringEncodedValue x = (res, y)) : y.length ≤ x.length := by
  have := readStringEncodedValue_snd_length_le x
  rw [h] at this
  exact this

/-- Go map assignment `m[k] = v` on the metadata map, modelled on an
association list: overwrite the entry when the key is present,
otherwise append it. -/
def mapInsert (m : List (List Nat × List Nat)) (k v : List Nat) :
    List (List Nat × List Nat) :=
  if m.any (fun p => p.1 == k) then m.map (fun p => if p.1 == k then (k, v) else p)
  else m ++ [(k, v)]

/-- The loop of `readMetadata`: repeatedly consume an `opAux` opcode
and a key/value pair of strings until a select-database or
end-of-stream byte is seen (left unconsumed); any other opcode byte is
`ErrBadOpCode`. -/
def readMetadataLoop (metadata : List (List Nat × List Nat)) (input : List Nat) :
    (Except Err (List (List Nat × List Nat))) × List Nat :=
  match input with
  | [] => (.error .ioEOF, [])
  | b :: rest =>
    if b = opSelectDB ∨ b = opEOF then (.ok metadata, b :: rest)
    else if b ≠ opAux then (.error .errBadOpCode, b :: rest)
    else
      match h1 : readStringEncodedValue rest with
      | (.error e, rest1) => (.error e, rest1)
      | (.ok (key, _), rest1) =>
        match h2 : readStringEncodedValue rest1 with
        | (.error e, rest2) => (.error e, rest2)
        | (.ok (val, _), rest2) =>
          readMetadataLoop (mapInsert metadata key val) rest2
termination_by input.length
decreasing_by
  have l1 := readStringEncodedValue_length_le h1
  have l2 := readStringEncodedValue_length_le h2
  simp only [List.length_cons]
  omega

/-- Embedding of `readMetadata`: the auxiliary-field loop started on an empty
metadata map. -/
def readMetadata (input : List Nat) :
    (Except Err (List (List Nat × List Nat))) × List Nat :=
  readMetadataLoop [] input

/-- Digit loop of Go `strconv.Atoi`: accumulate decimal digits, fail
on any non-digit character. -/
def parseDigits (acc : Nat) : List Nat → Option Nat
  | [] => some acc
  | c :: cs =>
    if 0x30 ≤ c ∧ c ≤ 0x39 then parseDigits (acc * 10 + (c - 0x30)) cs else none

/-- Go `strconv.Atoi` on a short byte string: optional sign, then a
nonempty run of decimal digits. -/
def atoi (s : List Nat) : Option Int :=
  match s with
  | [] => none
  | c :: cs =>
    if c = 0x2B then
      if cs = [] then none else (parseDigits 0 cs).map (fun n => (n : Int))
    else if c = 0x2D then
      if cs = [] then none else (parseDigits 0 cs).map (fun n => -(n : Int))
    else (parseDigits 0 (c :: cs)).map (fun n => (n : Int))

/-- The 5-byte magic signature `"REDIS"`. -/
def magicBytes : List Nat := [0x52, 0x45, 0x44, 0x49, 0x53]

/-- Lower bound of the supported version range. -/
def minVersion : Int := 7

/-- Upper bound of the supported version range. -/
def maxVersion : Int := 8

/-- Embedding of `NewReader`: validates the magic signature and the 4-digit ASCII
version, gates the version against `minVersion`/`maxVersion`, then
optionally consumes the auxiliary metadata run.  The two `Read` calls
into fixed-size buffers leave unread positions as zero bytes, which is
what the padding models. -/
def NewReader (input : List Nat) : Except Err Reader :=
  match input with
  | [] => .error .ioEOF
  | _ :: _ =>
    if input.take 5 ++ List.replicate (5 - input.length) 0 ≠ magicBytes then
      .error .errFormat
    else
      let rest := input.drop 5
      match atoi (rest.take 4 ++ List.replicate (4 - rest.length) 0) with
      | none => .error .errFormat
      | some v =>
        if minVersion > v ∨ v > maxVersion then .error .errVersion
        else
          match rest.drop 4 with
          | [] => .error .ioEOF
          | b :: rest2 =>
            if b = opAux then
              match readMetadata (b :: rest2) with
              | (.error e, _) => .error e
              | (.ok md, rest3) => .ok ⟨v, md, 0, rest3⟩
            else .ok ⟨v, [], 0, b :: rest2⟩

/-- Embedding of `Reader.Read`: peeks the next byte, runs the select-database
transition when it is `opSelectDB`, then reads one key/value record.
Returns `(dbno, ttl, valueType, key, value)` with the updated
session. -/
def Reader.Read (r : Reader) :
    (Except Err (Nat × Nat × Nat × List Nat × List Nat)) × Reader :=
  match r.buffer with
  | [] => (.error .ioEOF, r)
  | b :: _ =>
    match (if b = opSelectDB then setDBNo r else (.ok (), r)) with
    | (.error e, r') => (.error e, r')
    | (.ok _, r') =>
      match readKeyValuePair r'.buffer with
      | (.error e, rest') => (.error e, { r' with buffer := rest' })
      | (.ok (ttl, vt, key, value), rest') =>
        (.ok (r'.dbno, ttl, vt, key, value), { r' with buffer := rest' })

example : NewReader [] = .error .ioEOF := rfl

example : NewReader [0x52, 0x45, 0x44] = .error .errFormat := rfl

example : NewReader [0x52, 0x45, 0x44, 0x49, 0x53, 0x30, 0x30, 0x30, 0x38]
    = .error .ioEOF := rfl

example : NewReader [0x52, 0x45, 0x44, 0x49, 0x53, 0x30, 0x30, 0x00, 0x32, 0xFA]
    = .error .errFormat := rfl

example : NewReader [0x52, 0x45, 0x44, 0x49, 0x53, 0x30, 0x30, 0x30, 0x32, 0xFA]
    = .error .errVersion := rfl

example : setDBNo ⟨8, [], 5, [0xFE, 0x01, 0xFF]⟩ = (.ok (), ⟨8, [], 1, [0xFF]⟩) := rfl

example : setDBNo ⟨8, [], 5, [0xFE, 0x01]⟩ = (.error .ioEOF, ⟨8, [], 5, []⟩) := rfl

example : setDBNo ⟨8, [], 5, [0xFE, 0x01, 0xFB, 0x02, 0x03, 0xFF]⟩
    = (.ok (), ⟨8, [], 1, [0xFF]⟩) := rfl

example : setDBNo ⟨8, [], 5, [0xFE, 0x01, 0xFB]⟩ = (.error .ioEOF, ⟨8, [], 5, []⟩) := rfl

example : setDBNo ⟨8, [], 5, [0xFE, 0x01, 0xFB, 0x02]⟩ = (.error .ioEOF, ⟨8, [], 5, []⟩) := rfl

example : setDBNo ⟨8, [], 5, [0xFA]⟩ = (.error .errBadOpCode, ⟨8, [], 5, [0xFA]⟩) := rfl

example : setDBNo ⟨8, [], 5, [0xFE]⟩ = (.error .ioEOF, ⟨8, [], 5, []⟩) := rfl

example : setDBNo ⟨8, [], 5, []⟩ = (.error .ioEOF, ⟨8, [], 5, []⟩) := rfl

/-- Folding the big-endian step over leading zero bytes is the
identity on the accumulator `0`, so padding drops out. -/
theorem beUint64_replicate_zero (k : Nat) :
    List.foldl (fun acc b => acc * 256 + b) 0 (List.replicate k 0) = 0 := by
  induction k with
  | zero => rfl
  | succ k ih => simpa [List.replicate_succ] using ih

/-- The value of `binary.BigEndian.Uint64` on a zero-padded buffer is the
big-endian value of the unpadded bytes. -/
theorem beUint64_pad (bs : List Nat) : beUint64 (pad bs 8) = beUint64 bs := by
  unfold pad beUint64
  rw [List.foldl_append, beUint64_replicate_zero]

/-- Big-endian value of one padded byte. -/
theorem beUint64_pad_one (x : Nat) : beUint64 (pad [x] 8) = x := by
  rw [beUint64_pad]
  simp [beUint64]

/-- Big-endian value of two padded bytes. -/
theorem beUint64_pad_two (x y : Nat) : beUint64 (pad [x, y] 8) = x * 256 + y := by
  rw [beUint64_pad]
  simp [beUint64]

/-- Big-endian value of four padded bytes. -/
theorem beUint64_pad_four (x1 x2 x3 x4 : Nat) :
    beUint64 (pad [x1, x2, x3, x4] 8) = ((x1 * 256 + x2) * 256 + x3) * 256 + x4 := by
  rw [beUint64_pad]
  simp [beUint64]

/-- Big-endian value of eight padded bytes. -/
theorem beUint64_pad_eight (x1 x2 x3 x4 x5 x6 x7 x8 : Nat) :
    beUint64 (pad [x1, x2, x3, x4, x5, x6, x7, x8] 8)
      = ((((((x1 * 256 + x2) * 256 + x3) * 256 + x4) * 256 + x5) * 256 + x6) * 256
          + x7) * 256 + x8 := by
  rw [beUint64_pad]
  simp [beUint64]

/-- On success the raw bytes returned by the length codec are exactly
the bytes consumed from the cursor. -/
theorem readLenghtEncodedValue_span {input : List Nat} {v : Nat} {raw rest : List Nat}
    (h : readLenghtEncodedValue input = (.ok (v, raw), rest)) :
    input = raw ++ rest := by
  unfold readLenghtEncodedValue at h
  rcases input with _ | ⟨b, rest0⟩
  · simp at h
  · repeat' split at h
    all_goals first
      | (simp at h
         done)
      | (obtain ⟨⟨hv, hraw⟩, hrest⟩ := by
            simpa only [Prod.mk.injEq, Except.ok.injEq] using h
         subst hrest
         subst hv
         subst hraw
         simp_all [List.take_append_drop])

/-- On success the raw bytes returned by the string codec are exactly
the bytes consumed from the cursor. -/
theorem readStringEncodedValue_span {input : List Nat} {s raw rest : List Nat}
    (h : readStringEncodedValue input = (.ok (s, raw), rest)) :
    input = raw ++ rest := by
  unfold readStringEncodedValue at h
  rcases hl : readLenghtEncodedValue input with ⟨res, rest0⟩
  rw [hl] at h
  rcases res with e | ⟨l, raw0⟩
  · simp at h
  · simp only at h
    split at h
    · simp at h
    · obtain ⟨⟨hs, hraw⟩, hrest⟩ := by simpa [Prod.mk.injEq] using h
      subst hraw hrest
      rw [readLenghtEncodedValue_span hl, List.append_assoc,
        List.take_append_drop]

/-- On success the element loop consumed exactly the concatenation of
the element raw spans, and produced one string and one raw span per
requested element. -/
theorem readListElems_span :
    ∀ (n : Nat) (input : List Nat) (ss raws : List (List Nat)) (rest : List Nat),
      readListElems n input = (.ok (ss, raws), rest) →
      input = raws.flatten ++ rest ∧ ss.length = n ∧ raws.length = n := by
  intro n
  induction n with
  | zero =>
    intro input ss raws rest h
    simp only [readListElems, Prod.mk.injEq, Except.ok.injEq] at h
    obtain ⟨⟨h1, h2⟩, h3⟩ := h
    subst h1 h2 h3
    simp
  | succ n ih =>
    intro input ss raws rest h
    unfold readListElems at h
    rcases hs : readStringEncodedValue input with ⟨res, rest1⟩
    rw [hs] at h
    rcases res with e | ⟨s, raw⟩
    · simp at h
    · simp only at h
      rcases hl : readListElems n rest1 with ⟨res2, rest2⟩
      rw [hl] at h
      rcases res2 with e | ⟨ss', raws'⟩
      · simp at h
      · rw [Prod.mk.injEq, Except.ok.injEq, Prod.mk.injEq] at h
        obtain ⟨⟨hss, hraws⟩, hrest⟩ := h
        subst hss hraws hrest
        obtain ⟨ihspan, ihss, ihraws⟩ := ih rest1 ss' raws' rest2 hl
        refine ⟨?_, by simp [ihss], by simp [ihraws]⟩
        rw [readStringEncodedValue_span hs, ihspan]
        simp [List.append_assoc]

/-- The length codec never produces the version error. -/
theorem readLenghtEncodedValue_ne_errVersion (input : List Nat) :
    (readLenghtEncodedValue input).1 ≠ .error .errVersion := by
  unfold readLenghtEncodedValue
  rcases input with _ | ⟨b, rest⟩
  · simp
  · repeat' split
    all_goals simp

/-- The string codec never produces the version error. -/
theorem readStringEncodedValue_ne_errVersion (input : List Nat) :
    (readStringEncodedValue input).1 ≠ .error .errVersion := by
  have h := readLenghtEncodedValue_ne_errVersion input
  unfold readStringEncodedValue
  rcases hl : readLenghtEncodedValue input with ⟨res, rest⟩
  rw [hl] at h
  rcases res with e | ⟨l, raw⟩
  · simpa using h
  · simp only
    split <;> simp

/-- The metadata loop never produces the version error (by strong
induction on the input length, following the loop's own measure). -/
theorem readMetadataLoop_ne_errVersion :
    ∀ (n : Nat) (input : List Nat), input.length ≤ n →
      ∀ metadata, (readMetadataLoop metadata input).1 ≠ .error .errVersion := by
  intro n
  induction n with
  | zero =>
    intro input hlen md
    obtain rfl : input = [] := List.length_eq_zero.mp (Nat.le_zero.mp hlen)
    simp [readMetadataLoop]
  | succ n ih =>
    intro input hlen md
    rcases input with _ | ⟨b, rest⟩
    · simp [readMetadataLoop]
    · unfold readMetadataLoop
      split
      · simp
      · split
        · simp
        · split
          next e rest1 heq =>
            have hne := readStringEncodedValue_ne_errVersion rest
            rw [heq] at hne
            simpa using hne
          next key kraw rest1 heq1 =>
            split
            next e rest2 heq2 =>
              have hne := readStringEncodedValue_ne_errVersion rest1
              rw [heq2] at hne
              simpa using hne
            next val vraw rest2 heq2 =>
              have l1 := readStringEncodedValue_length_le heq1
              have l2 := readStringEncodedValue_length_le heq2
              exact ih rest2
                (by simp only [List.length_cons] at hlen; omega) (mapInsert md key val)

/-- The metadata stage never produces the version error. -/
theorem readMetadata_ne_errVersion (input : List Nat) :
    (readMetadata input).1 ≠ .error .errVersion :=
  readMetadataLoop_ne_errVersion input.length input le_rfl []

/-- C1: the length codec decodes the plain-integer modes as specified:
mode `00` yields the low 6 bits (0-63) consuming 1 byte; mode `01`
yields the 14-bit big-endian integer from the low 6 bits and one more
byte, consuming 2 bytes; mode `10` with width selector 0 yields the
next 4 bytes as a big-endian 32-bit integer, with selector 1 the next
8 bytes as a big-endian 64-bit integer, and any other selector is a
format error; decoding `{0x42, 0xFF}` yields 767 and decoding
`{0x80, 0x42, 0x31, 0x20, 0x53}` yields 1110515795. -/
theorem C1_plain_integer_modes :
    (∀ b rest, b / 64 % 4 = 0 →
      readLenghtEncodedValue (b :: rest) = (.ok (b % 64, [b]), rest) ∧ b % 64 ≤ 63) ∧
    (∀ b b2 rest, b / 64 % 4 = 1 →
      readLenghtEncodedValue (b :: b2 :: rest)
        = (.ok (b % 64 * 256 + b2, [b, b2]), rest)) ∧
    (∀ b c1 c2 c3 c4 rest, b / 64 % 4 = 2 → b % 64 = 0 →
      readLenghtEncodedValue (b :: c1 :: c2 :: c3 :: c4 :: rest)
        = (.ok (((c1 * 256 + c2) * 256 + c3) * 256 + c4, [b, c1, c2, c3, c4]), rest)) ∧
    (∀ b c1 c2 c3 c4 c5 c6 c7 c8 rest, b / 64 % 4 = 2 → b % 64 = 1 →
      readLenghtEncodedValue (b :: c1 :: c2 :: c3 :: c4 :: c5 :: c6 :: c7 :: c8 :: rest)
        = (.ok (((((((c1 * 256 + c2) * 256 + c3) * 256 + c4) * 256 + c5) * 256 + c6) * 256
              + c7) * 256 + c8, [b, c1, c2, c3, c4, c5, c6, c7, c8]), rest)) ∧
    (∀ b rest, b / 64 % 4 = 2 → 2 ≤ b % 64 →
      readLenghtEncodedValue (b :: rest) = (.error .errFormat, rest)) ∧
    readLenghtEncodedValue [0x42, 0xFF] = (.ok (767, [0x42, 0xFF]), []) ∧
    readLenghtEncodedValue [0x80, 0x42, 0x31, 0x20, 0x53]
      = (.ok (1110515795, [0x80, 0x42, 0x31, 0x20, 0x53]), []) := by
  refine ⟨?_, ?_, ?_, ?_, ?_, rfl, rfl⟩
  · intro b rest h
    refine ⟨?_, by omega⟩
    unfold readLenghtEncodedValue
    simp only [h]
    norm_num [beUint64_pad_one]
  · intro b b2 rest h
    unfold readLenghtEncodedValue
    simp only [h]
    norm_num [beUint64_pad_two]
  · intro b c1 c2 c3 c4 rest h h2
    unfold readLenghtEncodedValue
    simp only [h, h2]
    norm_num [beUint64_pad_four]
  · intro b c1 c2 c3 c4 c5 c6 c7 c8 rest h h2
    unfold readLenghtEncodedValue
    simp only [h, h2]
    norm_num [beUint64_pad_eight]
  · intro b rest h h2
    obtain ⟨k, hk⟩ : ∃ k, b % 64 = k + 2 := ⟨b % 64 - 2, by omega⟩
    unfold readLenghtEncodedValue
    simp only [h, hk]

/-- C1 witness: the hypothesised modes evaluated at concrete bytes. -/
theorem C1_plain_integer_modes_witness :
    readLenghtEncodedValue [0x05] = (.ok (0x05 % 64, [0x05]), []) ∧
    readLenghtEncodedValue [0x42, 0xFF] = (.ok (0x42 % 64 * 256 + 0xFF, [0x42, 0xFF]), []) ∧
    readLenghtEncodedValue [0x80, 0x42, 0x31, 0x20, 0x53]
      = (.ok (((0x42 * 256 + 0x31) * 256 + 0x20) * 256 + 0x53,
          [0x80, 0x42, 0x31, 0x20, 0x53]), []) ∧
    readLenghtEncodedValue [0x82] = (.error .errFormat, []) :=
  ⟨(C1_plain_integer_modes.1 0x05 [] rfl).1,
   C1_plain_integer_modes.2.1 0x42 0xFF [] rfl,
   C1_plain_integer_modes.2.2.1 0x80 0x42 0x31 0x20 0x53 [] rfl rfl,
   C1_plain_integer_modes.2.2.2.2.1 0x82 [] rfl (by decide)⟩

/-- C4 counterexample: a mode-`10` length prefix whose 4 following
bytes are cut short (one byte missing) fails with the format error,
not with the input-exhausted condition, refuting "truncation is never
reported as a format error". -/
theorem C4_counterexample :
    readLenghtEncodedValue [0x80, 0x42, 0x31, 0x20] = (.error .errFormat, []) ∧
    Err.errFormat ≠ Err.ioEOF :=
  ⟨rfl, by decide⟩

/-- C4 amended: string content shorter than its decoded length fails
with `io.EOF`; a read started on a fully exhausted source (mode `01`
or `10` with no following byte, or empty input) fails with `io.EOF`;
but a mode-`10` payload cut short while at least one byte is available
fails with the format error.  The two conditions are distinct
values. -/
theorem C4_truncation_conditions :
    (∀ input l raw rest, readLenghtEncodedValue input = (.ok (l, raw), rest) →
      rest.length < l → readStringEncodedValue input = (.error .ioEOF, [])) ∧
    (∀ b, b / 64 % 4 = 2 → b % 64 ≤ 1 →
      readLenghtEncodedValue [b] = (.error .ioEOF, [])) ∧
    (∀ b, b / 64 % 4 = 1 → readLenghtEncodedValue [b] = (.error .ioEOF, [])) ∧
    (∀ b rest, b / 64 % 4 = 2 → b % 64 = 0 → 0 < rest.length → rest.length < 4 →
      readLenghtEncodedValue (b :: rest) = (.error .errFormat, [])) ∧
    (∀ b rest, b / 64 % 4 = 2 → b % 64 = 1 → 0 < rest.length → rest.length < 8 →
      readLenghtEncodedValue (b :: rest) = (.error .errFormat, [])) ∧
    readLenghtEncodedValue [] = (.error .ioEOF, []) ∧
    Err.ioEOF ≠ Err.errFormat := by
  refine ⟨?_, ?_, ?_, ?_, ?_, rfl, by decide⟩
  · intro input l raw rest h hlt
    unfold readStringEncodedValue
    rw [h]
    simp [hlt]
  · intro b h h2
    have hc : b % 64 = 0 ∨ b % 64 = 1 := by omega
    rcases hc with h2' | h2' <;>
      (unfold readLenghtEncodedValue; simp only [h, h2']; norm_num)
  · intro b h
    unfold readLenghtEncodedValue
    simp only [h]
  · intro b rest h h2 hpos hlt
    unfold readLenghtEncodedValue
    simp only [h, h2]
    rw [if_neg (by omega), if_pos (by omega)]
  · intro b rest h h2 hpos hlt
    unfold readLenghtEncodedValue
    simp only [h, h2]
    rw [if_neg (by omega), if_pos (by omega)]

/-- C4 witness: the hypothesised truncation conditions evaluated at
concrete inputs (matching the package's own test vectors). -/
theorem C4_truncation_conditions_witness :
    readStringEncodedValue [0x01] = (.error .ioEOF, []) ∧
    readLenghtEncodedValue [0x80] = (.error .ioEOF, []) ∧
    readLenghtEncodedValue [0x42] = (.error .ioEOF, []) ∧
    readLenghtEncodedValue [0x80, 0x42, 0x31, 0x20] = (.error .errFormat, []) ∧
    readLenghtEncodedValue [0x81, 0x12, 0x23, 0x34, 0x45, 0x56, 0x67, 0x78]
      = (.error .errFormat, []) :=
  ⟨C4_truncation_conditions.1 [0x01] 1 [0x01] [] rfl (by decide),
   C4_truncation_conditions.2.1 0x80 rfl (by decide),
   C4_truncation_conditions.2.2.1 0x42 rfl,
   C4_truncation_conditions.2.2.2.1 0x80 [0x42, 0x31, 0x20] rfl rfl (by decide) (by decide),
   C4_truncation_conditions.2.2.2.2.1 0x81 [0x12, 0x23, 0x34, 0x45, 0x56, 0x67, 0x78]
     rfl rfl (by decide) (by decide)⟩

/-- C5: mode-`11` sub-types 0, 1, 2 make the length codec return the
byte counts 1, 2, 4 as a special-string sentinel (consuming only the
prefix byte); the string codec then takes exactly that many raw bytes
verbatim as the content; sub-type 3 (compressed) fails with the
unsupported-feature error; every other sub-type is a format error. -/
theorem C5_special_string_subtypes :
    (∀ b rest, b / 64 % 4 = 3 → b % 64 = 0 →
      readLenghtEncodedValue (b :: rest) = (.ok (1, [b]), rest)) ∧
    (∀ b rest, b / 64 % 4 = 3 → b % 64 = 1 →
      readLenghtEncodedValue (b :: rest) = (.ok (2, [b]), rest)) ∧
    (∀ b rest, b / 64 % 4 = 3 → b % 64 = 2 →
      readLenghtEncodedValue (b :: rest) = (.ok (4, [b]), rest)) ∧
    (∀ b rest, b / 64 % 4 = 3 → b % 64 = 3 →
      readLenghtEncodedValue (b :: rest) = (.error .errNotSupported, rest)) ∧
    (∀ b rest, b / 64 % 4 = 3 → 4 ≤ b % 64 →
      readLenghtEncodedValue (b :: rest) = (.error .errFormat, rest)) ∧
    (∀ b c1 rest, b / 64 % 4 = 3 → b % 64 = 0 →
      readStringEncodedValue (b :: c1 :: rest) = (.ok ([c1], [b, c1]), rest)) ∧
    (∀ b c1 c2 rest, b / 64 % 4 = 3 → b % 64 = 1 →
      readStringEncodedValue (b :: c1 :: c2 :: rest)
        = (.ok ([c1, c2], [b, c1, c2]), rest)) ∧
    (∀ b c1 c2 c3 c4 rest, b / 64 % 4 = 3 → b % 64 = 2 →
      readStringEncodedValue (b :: c1 :: c2 :: c3 :: c4 :: rest)
        = (.ok ([c1, c2, c3, c4], [b, c1, c2, c3, c4]), rest)) := by
  refine ⟨?_, ?_, ?_, ?_, ?_, ?_, ?_, ?_⟩
  · intro b rest h h2
    unfold readLenghtEncodedValue
    simp only [h, h2]
  · intro b rest h h2
    unfold readLenghtEncodedValue
    simp only [h, h2]
  · intro b rest h h2
    unfold readLenghtEncodedValue
    simp only [h, h2]
  · intro b rest h h2
    unfold readLenghtEncodedValue
    simp only [h, h2]
  · intro b rest h h2
    obtain ⟨k, hk⟩ : ∃ k, b % 64 = k + 4 := ⟨b % 64 - 4, by omega⟩
    unfold readLenghtEncodedValue
    simp only [h, hk]
  · intro b c1 rest h h2
    have hl : readLenghtEncodedValue (b :: c1 :: rest) = (.ok (1, [b]), c1 :: rest) := by
      unfold readLenghtEncodedValue
      simp only [h, h2]
    unfold readStringEncodedValue
    rw [hl]
    norm_num
  · intro b c1 c2 rest h h2
    have hl : readLenghtEncodedValue (b :: c1 :: c2 :: rest)
        = (.ok (2, [b]), c1 :: c2 :: rest) := by
      unfold readLenghtEncodedValue
      simp only [h, h2]
    unfold readStringEncodedValue
    rw [hl]
    norm_num
  · intro b c1 c2 c3 c4 rest h h2
    have hl : readLenghtEncodedValue (b :: c1 :: c2 :: c3 :: c4 :: rest)
        = (.ok (4, [b]), c1 :: c2 :: c3 :: c4 :: rest) := by
      unfold readLenghtEncodedValue
      simp only [h, h2]
    unfold readStringEncodedValue
    rw [hl]
    norm_num

/-- C5 witness: the special sub-types evaluated at concrete bytes. -/
theorem C5_special_string_subtypes_witness :
    readLenghtEncodedValue [0xC0] = (.ok (1, [0xC0]), []) ∧
    readLenghtEncodedValue [0xC1] = (.ok (2, [0xC1]), []) ∧
    readLenghtEncodedValue [0xC2] = (.ok (4, [0xC2]), []) ∧
    readLenghtEncodedValue [0xC3, 0x01] = (.error .errNotSupported, [0x01]) ∧
    readLenghtEncodedValue [0xC4] = (.error .errFormat, []) ∧
    readStringEncodedValue [0xC0, 0x7B] = (.ok ([0x7B], [0xC0, 0x7B]), []) ∧
    readStringEncodedValue [0xC1, 0x01, 0x02] = (.ok ([0x01, 0x02], [0xC1, 0x01, 0x02]), []) ∧
    readStringEncodedValue [0xC2, 0x01, 0x02, 0x03, 0x04]
      = (.ok ([0x01, 0x02, 0x03, 0x04], [0xC2, 0x01, 0x02, 0x03, 0x04]), []) :=
  ⟨C5_special_string_subtypes.1 0xC0 [] rfl rfl,
   C5_special_string_subtypes.2.1 0xC1 [] rfl rfl,
   C5_special_string_subtypes.2.2.1 0xC2 [] rfl rfl,
   C5_special_string_subtypes.2.2.2.1 0xC3 [0x01] rfl rfl,
   C5_special_string_subtypes.2.2.2.2.1 0xC4 [] rfl (by decide),
   C5_special_string_subtypes.2.2.2.2.2.1 0xC0 0x7B [] rfl rfl,
   C5_special_string_subtypes.2.2.2.2.2.2.1 0xC1 0x01 0x02 [] rfl rfl,
   C5_special_string_subtypes.2.2.2.2.2.2.2 0xC2 0x01 0x02 0x03 0x04 [] rfl rfl⟩

/-- C2: every successfully decoded ordered-sequence body consists of
the ordered sequence of element strings read by the string codec, and
its raw span is the count's raw bytes followed by each element's raw
bytes in order, byte-identical to the input span consumed. -/
theorem C2_list_roundtrip (input : List Nat) (items : List (List Nat))
    (raw rest : List Nat)
    (h : readListEncodedValue input = (.ok (items, raw), rest)) :
    ∃ cnt craw mid raws,
      readLenghtEncodedValue input = (.ok (cnt, craw), mid) ∧
      readListElems cnt mid = (.ok (items, raws), rest) ∧
      items.length = cnt ∧ raws.length = cnt ∧
      raw = craw ++ raws.flatten ∧
      input = raw ++ rest := by
  unfold readListEncodedValue at h
  rcases hl : readLenghtEncodedValue input with ⟨res, mid⟩
  rw [hl] at h
  rcases res with e | ⟨cnt, craw⟩
  · simp at h
  · simp only at h
    rcases he : readListElems cnt mid with ⟨res2, rest2⟩
    rw [he] at h
    rcases res2 with e | ⟨ss, raws⟩
    · simp at h
    · rw [Prod.mk.injEq, Except.ok.injEq, Prod.mk.injEq] at h
      obtain ⟨⟨hss, hraw⟩, hrest⟩ := h
      subst hss hraw hrest
      obtain ⟨hspan, hlen1, hlen2⟩ := readListElems_span cnt mid ss raws rest2 he
      refine ⟨cnt, craw, mid, raws, rfl, he, hlen1, hlen2, rfl, ?_⟩
      rw [readLenghtEncodedValue_span hl, hspan]
      simp [List.append_assoc]

/-- C2 witness: the round-trip law evaluated on the package's own list
test vector (count 2, `"Hello"`, `"world!"`). -/
theorem C2_list_roundtrip_witness :
    ∃ cnt craw mid raws,
      readLenghtEncodedValue [0x02, 0x05, 0x48, 0x65, 0x6C, 0x6C, 0x6F, 0x06,
          0x77, 0x6F, 0x72, 0x6C, 0x64, 0x21] = (.ok (cnt, craw), mid) ∧
      readListElems cnt mid
        = (.ok ([[0x48, 0x65, 0x6C, 0x6C, 0x6F], [0x77, 0x6F, 0x72, 0x6C, 0x64, 0x21]],
            raws), []) ∧
      ([[0x48, 0x65, 0x6C, 0x6C, 0x6F],
        [0x77, 0x6F, 0x72, 0x6C, 0x64, 0x21]] : List (List Nat)).length = cnt ∧
      raws.length = cnt ∧
      [0x02, 0x05, 0x48, 0x65, 0x6C, 0x6C, 0x6F, 0x06, 0x77, 0x6F, 0x72, 0x6C, 0x64, 0x21]
        = craw ++ raws.flatten ∧
      ([0x02, 0x05, 0x48, 0x65, 0x6C, 0x6C, 0x6F, 0x06,
          0x77, 0x6F, 0x72, 0x6C, 0x64, 0x21] : List Nat)
        = [0x02, 0x05, 0x48, 0x65, 0x6C, 0x6C, 0x6F, 0x06,
            0x77, 0x6F, 0x72, 0x6C, 0x64, 0x21] ++ [] :=
  C2_list_roundtrip
    [0x02, 0x05, 0x48, 0x65, 0x6C, 0x6C, 0x6F, 0x06, 0x77, 0x6F, 0x72, 0x6C, 0x64, 0x21]
    [[0x48, 0x65, 0x6C, 0x6C, 0x6F], [0x77, 0x6F, 0x72, 0x6C, 0x64, 0x21]]
    [0x02, 0x05, 0x48, 0x65, 0x6C, 0x6C, 0x6F, 0x06, 0x77, 0x6F, 0x72, 0x6C, 0x64, 0x21]
    [] rfl

/-- C6: after a successful key decode, every value-type tag other than
`List` and `Set` makes the record read fail with the same
unsupported-feature error (distinct from the format error), and any
successful record read carries a `List` or `Set` tag. -/
theorem C6_unsupported_value_types :
    (∀ ttl vtb rest key kraw rest2, vtb ≠ ValueType.List → vtb ≠ ValueType.Set →
      readStringEncodedValue rest = (.ok (key, kraw), rest2) →
      readKVAfterTTL ttl (vtb :: rest) = (.error .errNotSupported, rest2)) ∧
    (∀ ttl input res rest, readKVAfterTTL ttl input = (.ok res, rest) →
      res.2.1 = ValueType.List ∨ res.2.1 = ValueType.Set) ∧
    Err.errNotSupported ≠ Err.errFormat := by
  refine ⟨?_, ?_, by decide⟩
  · intro ttl vtb rest key kraw rest2 h1 h2 hk
    simp only [readKVAfterTTL]
    rw [hk]
    simp [h1, h2]
  · intro ttl input res rest h
    rcases input with _ | ⟨vtb, rest0⟩
    · simp [readKVAfterTTL] at h
    · simp only [readKVAfterTTL] at h
      rcases hk : readStringEncodedValue rest0 with ⟨kres, rest2⟩
      rw [hk] at h
      rcases kres with e | ⟨key, kraw⟩
      · simp at h
      · simp only at h
        repeat' split at h
        all_goals first
          | (simp at h
             done)
          | (rw [Prod.mk.injEq, Except.ok.injEq] at h
             obtain ⟨hres, hrest⟩ := h
             subst hres
             simp_all)

/-- C6 witness: tag 3 (`Zset`) is refused after a good key; a `List`
record read succeeds and indeed carries the `List` tag. -/
theorem C6_unsupported_value_types_witness :
    readKVAfterTTL 0 [3, 0x00] = (.error .errNotSupported, []) ∧
    (((0, 1, [], [0x00]) : Nat × Nat × List Nat × List Nat).2.1 = ValueType.List ∨
      ((0, 1, [], [0x00]) : Nat × Nat × List Nat × List Nat).2.1 = ValueType.Set) :=
  ⟨C6_unsupported_value_types.1 0 3 [0x00] [] [0x00] [] (by decide) (by decide) rfl,
   C6_unsupported_value_types.2.1 0 [1, 0x00, 0x00] (0, 1, [], [0x00]) [] rfl⟩

/-- C7: an `opExpiretime` (seconds) prefix sets the TTL to the decoded
integer times 1000 in uint64 arithmetic (exactly times 1000 whenever
that product fits in 64 bits); an `opExpiretimeMs` prefix uses the
decoded integer unchanged; any other first byte leaves the TTL 0 and
is itself used as the value-type tag; a successful record read returns
the TTL and tag so determined. -/
theorem C7_ttl_handling :
    (∀ rest t traw rest', readLenghtEncodedValue rest = (.ok (t, traw), rest') →
      readKeyValuePair (opExpiretime :: rest)
          = readKVAfterTTL (t * 1000 % 2 ^ 64) rest' ∧
        (t * 1000 < 2 ^ 64 →
          readKeyValuePair (opExpiretime :: rest) = readKVAfterTTL (t * 1000) rest')) ∧
    (∀ rest t traw rest', readLenghtEncodedValue rest = (.ok (t, traw), rest') →
      readKeyValuePair (opExpiretimeMs :: rest) = readKVAfterTTL t rest') ∧
    (∀ b rest, b ≠ opExpiretimeMs → b ≠ opExpiretime →
      readKeyValuePair (b :: rest) = readKVAfterTTL 0 (b :: rest)) ∧
    (∀ ttl input res rest, readKVAfterTTL ttl input = (.ok res, rest) → res.1 = ttl) ∧
    (∀ ttl vtb rest res rest', readKVAfterTTL ttl (vtb :: rest) = (.ok res, rest') →
      res.2.1 = vtb) := by
  refine ⟨?_, ?_, ?_, ?_, ?_⟩
  · intro rest t traw rest' h
    have hmain : readKeyValuePair (opExpiretime :: rest)
        = readKVAfterTTL (t * 1000 % 2 ^ 64) rest' := by
      simp only [readKeyValuePair, if_true, if_false]
      rw [h, if_neg (by decide)]
    refine ⟨hmain, fun hlt => ?_⟩
    rw [hmain, Nat.mod_eq_of_lt hlt]
  · intro rest t traw rest' h
    simp only [readKeyValuePair, if_true, if_false]
    rw [h]
  · intro b rest h1 h2
    simp only [readKeyValuePair]
    rw [if_neg h1, if_neg h2]
  · intro ttl input res rest h
    rcases input with _ | ⟨vtb, rest0⟩
    · simp [readKVAfterTTL] at h
    · simp only [readKVAfterTTL] at h
      rcases hk : readStringEncodedValue rest0 with ⟨kres, rest2⟩
      rw [hk] at h
      rcases kres with e | ⟨key, kraw⟩
      · simp at h
      · simp only at h
        repeat' split at h
        all_goals first
          | (simp at h
             done)
          | (rw [Prod.mk.injEq, Except.ok.injEq] at h
             obtain ⟨hres, hrest⟩ := h
             subst hres
             simp)
  · intro ttl vtb rest res rest' h
    simp only [readKVAfterTTL] at h
    rcases hk : readStringEncodedValue rest with ⟨kres, rest2⟩
    rw [hk] at h
    rcases kres with e | ⟨key, kraw⟩
    · simp at h
    · simp only at h
      repeat' split at h
      all_goals first
        | (simp at h
           done)
        | (rw [Prod.mk.injEq, Except.ok.injEq] at h
           obtain ⟨hres, hrest⟩ := h
           subst hres
           simp)

/-- C7 witness: TTL handling evaluated at concrete records. -/
theorem C7_ttl_handling_witness :
    readKeyValuePair [0xFD, 0x02] = readKVAfterTTL (2 * 1000) [] ∧
    readKeyValuePair [0xFC, 0x02] = readKVAfterTTL 2 [] ∧
    readKeyValuePair [0x01, 0x00, 0x00] = readKVAfterTTL 0 [0x01, 0x00, 0x00] ∧
    ((7, 1, [], [0x00]) : Nat × Nat × List Nat × List Nat).1 = 7 :=
  ⟨(C7_ttl_handling.1 [0x02] 2 [0x02] [] rfl).2 (by norm_num),
   C7_ttl_handling.2.1 [0x02] 2 [0x02] [] rfl,
   C7_ttl_handling.2.2.1 0x01 [0x00, 0x00] (by decide) (by decide),
   C7_ttl_handling.2.2.2.1 7 [1, 0x00, 0x00] (7, 1, [], [0x00]) [] rfl⟩

/-- C3 (code evaluation): a record read on a session whose remaining
input begins with the end-of-stream opcode `0xFF` does NOT terminate
cleanly: `Reader.Read` has no end-of-stream case, treats `0xFF` as a
value-type tag, and reports an error (`io.EOF` on the bare marker and
on the test stream's trailing checksum, `ErrNotSupported` when enough
bytes follow to decode a key); an exhausted source also errors. -/
theorem C3_eof_opcode_errors :
    (Reader.Read ⟨8, [], 0, [opEOF]⟩).1 = .error .ioEOF ∧
    (Reader.Read ⟨8, [], 0, [opEOF, 0x1C, 0x2A, 0x76, 0xC3, 0xE9, 0xF5, 0x2A, 0x6A]⟩).1
      = .error .ioEOF ∧
    (Reader.Read ⟨8, [], 0, [opEOF, 0x00, 0x41]⟩).1 = .error .errNotSupported ∧
    (Reader.Read ⟨8, [], 0, []⟩).1 = .error .ioEOF :=
  ⟨rfl, rfl, rfl, rfl⟩

/-- C8 counterexample: a well-formed header with version `0003`
(inside the claimed accepted range 3..8) is rejected with the
unsupported-version error, because the code's `minVersion` is 7. -/
theorem C8_counterexample :
    NewReader [0x52, 0x45, 0x44, 0x49, 0x53, 0x30, 0x30, 0x30, 0x33]
      = .error .errVersion ∧ minVersion = 7 :=
  ⟨rfl, rfl⟩

/-- C8 amended: for a well-formed header whose 4 version bytes parse
to `v`, `NewReader` fails with the unsupported-version error exactly
when `v` is outside the inclusive range `minVersion = 7` to
`maxVersion = 8`; on rejection only the error is returned (no
session). -/
theorem C8_version_gate (vbs rest : List Nat) (v : Int)
    (hlen : vbs.length = 4) (hv : atoi vbs = some v) :
    NewReader (magicBytes ++ (vbs ++ rest)) = .error .errVersion
      ↔ (v < minVersion ∨ maxVersion < v) := by
  obtain ⟨a, b, c, d, rfl⟩ : ∃ a b c d, vbs = [a, b, c, d] := by
    rcases vbs with _ | ⟨a, _ | ⟨b, _ | ⟨c, _ | ⟨d, _ | ⟨e, t⟩⟩⟩⟩⟩ <;>
      first
        | exact ⟨a, b, c, d, rfl⟩
        | (exfalso
           simp only [List.length_cons, List.length_nil] at hlen
           omega)
  have hred : NewReader (magicBytes ++ ([a, b, c, d] ++ rest))
      = if v < minVersion ∨ maxVersion < v then .error .errVersion
        else
          match rest with
          | [] => .error .ioEOF
          | b1 :: rest2 =>
            if b1 = opAux then
              match readMetadata (b1 :: rest2) with
              | (.error e, _) => .error e
              | (.ok md, rest3) => .ok ⟨v, md, 0, rest3⟩
            else .ok ⟨v, [], 0, b1 :: rest2⟩ := by
    show NewReader (0x52 :: 0x45 :: 0x44 :: 0x49 :: 0x53 :: a :: b :: c :: d :: rest) = _
    unfold NewReader
    norm_num [hv]
    intro hmm
    exact absurd rfl hmm
  rw [hred]
  constructor
  · intro h
    by_contra hc
    rw [if_neg hc] at h
    rcases rest with _ | ⟨b1, rest2⟩
    · simp at h
    · simp only at h
      split at h
      · rcases hm : readMetadata (b1 :: rest2) with ⟨mres, rest3⟩
        rw [hm] at h
        rcases mres with e | md
        · have hne := readMetadata_ne_errVersion (b1 :: rest2)
          rw [hm] at hne
          simp only [Except.error.injEq] at h
          exact hne (by simp [h])
        · simp at h
      · simp at h
  · intro h
    rw [if_pos h]

/-- C8 witness: the spec's scenario-B version field `0032` is
rejected with the unsupported-version error. -/
theorem C8_version_gate_witness :
    NewReader (magicBytes ++ ([0x30, 0x30, 0x33, 0x32] ++ [])) = .error .errVersion :=
  (C8_version_gate [0x30, 0x30, 0x33, 0x32] [] 32 rfl rfl).mpr (by decide)

/-- C9 counterexample: an empty source makes `NewReader` fail with the
propagated `io.EOF`, not with the not-this-format error the claim
requires for every source shorter than 5 bytes. -/
theorem C9_counterexample :
    NewReader [] = .error .ioEOF ∧ Err.ioEOF ≠ Err.errFormat :=
  ⟨rfl, by decide⟩

/-- C9 amended: session construction fails with the not-this-format error
whenever a nonempty source's first 5 bytes (zero-padded on a short
read) differ from the magic signature — including a 3-byte source —
and whenever the 4 version bytes do not parse as a decimal integer; a
completely empty source instead propagates `io.EOF`. -/
theorem C9_header_gate :
    (∀ input, input ≠ [] →
      input.take 5 ++ List.replicate (5 - input.length) 0 ≠ magicBytes →
      NewReader input = .error .errFormat) ∧
    NewReader [] = .error .ioEOF ∧
    (∀ rest, atoi (rest.take 4 ++ List.replicate (4 - rest.length) 0) = none →
      NewReader (magicBytes ++ rest) = .error .errFormat) ∧
    NewReader [0x52, 0x45, 0x44] = .error .errFormat := by
  refine ⟨?_, rfl, ?_, rfl⟩
  · intro input hne hmagic
    rcases input with _ | ⟨b, rest⟩
    · exact absurd rfl hne
    · simp only [NewReader]
      rw [if_pos hmagic]
  · intro rest hp
    show NewReader (0x52 :: 0x45 :: 0x44 :: 0x49 :: 0x53 :: rest) = .error .errFormat
    unfold NewReader
    norm_num [hp]

/-- C9 witness: a wrong magic byte and an unparseable version field
both yield the not-this-format error. -/
theorem C9_header_gate_witness :
    NewReader [0x00] = .error .errFormat ∧
    NewReader (magicBytes ++ [0x41, 0x41, 0x41, 0x41]) = .error .errFormat :=
  ⟨C9_header_gate.1 [0x00] (by decide) (by decide),
   C9_header_gate.2.2.1 [0x41, 0x41, 0x41, 0x41] rfl⟩

/-- C10: the select-database transition leaves the session's database
number unchanged on every error (wrong opcode, exhausted input,
malformed length, truncated resize hint), and assigns it the newly
decoded database number exactly when the whole transition succeeds. -/
theorem C10_setDBNo_frame (r : Reader) :
    (∀ e, (setDBNo r).1 = .error e → ((setDBNo r).2).dbno = r.dbno) ∧
    ((setDBNo r).1 = .ok () → ∃ db raw rest1,
      readLenghtEncodedValue (r.buffer.drop 1) = (.ok (db, raw), rest1) ∧
      ((setDBNo r).2).dbno = db) := by
  obtain ⟨V, M, db0, buf⟩ := r
  rcases buf with _ | ⟨b, rest⟩
  · simp [setDBNo]
  · simp only [setDBNo]
    split
    · constructor
      · intro e he
        rfl
      · intro hok
        simp at hok
    · split
      next e rest1 hl =>
        constructor
        · intro e' he'
          rfl
        · intro hok
          simp at hok
      next db raw rest1 hl =>
        split
        · constructor
          · intro e' he'
            rfl
          · intro hok
            simp at hok
        next b2 rest2 =>
          split
          · split
            next e rest3 hl2 =>
              constructor
              · intro e' he'
                rfl
              · intro hok
                simp at hok
            next v2 raw2 rest3 hl2 =>
              split
              next e rest4 hl3 =>
                constructor
                · intro e' he'
                  rfl
                · intro hok
                  simp at hok
              next v3 raw3 rest4 hl3 =>
                constructor
                · intro e' he'
                  simp at he'
                · intro hok
                  exact ⟨db, raw, b2 :: rest2, by simpa using hl, rfl⟩
          · constructor
            · intro e' he'
              simp at he'
            · intro hok
              exact ⟨db, raw, b2 :: rest2, by simpa using hl, rfl⟩

/-- C10 witness: a wrong leading opcode leaves `dbno` untouched; a
successful transition stores the decoded number. -/
theorem C10_setDBNo_frame_witness :
    ((setDBNo ⟨8, [], 5, [0xFA]⟩).2).dbno = 5 ∧
    (∃ db raw rest1,
      readLenghtEncodedValue ((⟨8, [], 5, [0xFE, 0x01, 0xFF]⟩ : Reader).buffer.drop 1)
        = (.ok (db, raw), rest1) ∧
      ((setDBNo ⟨8, [], 5, [0xFE, 0x01, 0xFF]⟩).2).dbno = db) :=
  ⟨(C10_setDBNo_frame ⟨8, [], 5, [0xFA]⟩).1 .errBadOpCode rfl,
   (C10_setDBNo_frame ⟨8, [], 5, [0xFE, 0x01, 0xFF]⟩).2 rfl⟩

end RDB
